import Mathlib

/-!
Verification of the dual-worker step orchestrator in
`letta/split_thread_agent.py` (`SplitThreadAgent`).

The embedding below translates the orchestration core into Lean:

* `UsageStatistics` / `AgentStepResponse` — the step-result record that
  `_combine_steps` folds over.
* `combine_steps` — `SplitThreadAgent._combine_steps` (variadic merge).
* `depositMemoryResult` — the pending-slot update in `_memory_step`
  (lines 185–189).
* `mergePhase` / `conversationPhase` / `stepRun` — the body of
  `SplitThreadAgent.step` (lines 122–158).
* `memory_step_run` — the effects of `SplitThreadAgent._memory_step`
  as a function of whether the underlying agent step returns or raises.
* `SplitState` / `succs` — a small interleaving model of the
  conversation thread (inside its turn, holding
  `conversation_agent_lock`, invoking `_wait_for_memory_tool`) and the
  memory thread (after its agent step returns), used for the
  rendezvous / publish-ordering claims.
* `memory_tool_objs` / `conversation_tool_objs` — the tool partition in
  `create_split_thread_agent` (lines 248–249).
-/

/-- Messages are opaque to the orchestrator: `_combine_steps` only
concatenates the `messages` lists, never inspects them.  We therefore
identify a message with an opaque identifier. -/
abbrev Message := Nat

/-- Modelled from the spec: `usage: {promptTokens, completionTokens,
totalTokens}` (additive).  The `UsageStatistics` schema and its
`__add__` used by `combined_step.usage += step.usage` live in
`letta/schemas/openai/chat_completion_response.py`, which is not among
the sources here; the spec fixes componentwise addition of the three
token counters. -/
structure UsageStatistics where
  prompt_tokens : Nat := 0
  completion_tokens : Nat := 0
  total_tokens : Nat := 0
  deriving DecidableEq, Repr

/-- Componentwise addition of usage statistics (spec §3: usage is
additive under merge). -/
def UsageStatistics.add (a b : UsageStatistics) : UsageStatistics where
  prompt_tokens := a.prompt_tokens + b.prompt_tokens
  completion_tokens := a.completion_tokens + b.completion_tokens
  total_tokens := a.total_tokens + b.total_tokens

/-- `AgentStepResponse`: the step-result record, with exactly the fields
`_combine_steps` reads and writes (`messages`, `heartbeat_request`,
`function_failed`, `in_context_memory_warning`, `usage`). -/
structure AgentStepResponse where
  messages : List Message
  heartbeat_request : Bool
  function_failed : Bool
  in_context_memory_warning : Bool
  usage : UsageStatistics
  deriving DecidableEq, Repr

/-- The freshly constructed accumulator at the top of `_combine_steps`:
empty messages, all flags `False`, `UsageStatistics()` (all counters 0). -/
def emptyStep : AgentStepResponse where
  messages := []
  heartbeat_request := false
  function_failed := false
  in_context_memory_warning := false
  usage := {}

/-- One iteration of the `for step in steps` loop of `_combine_steps`:
concatenate messages, OR the three booleans, add the usage. -/
def combineInto (acc s : AgentStepResponse) : AgentStepResponse where
  messages := acc.messages ++ s.messages
  heartbeat_request := acc.heartbeat_request || s.heartbeat_request
  function_failed := acc.function_failed || s.function_failed
  in_context_memory_warning :=
    acc.in_context_memory_warning || s.in_context_memory_warning
  usage := acc.usage.add s.usage

/-- `SplitThreadAgent._combine_steps(*steps)`: fold the loop body over
the argument list, starting from the empty accumulator. -/
def combine_steps (steps : List AgentStepResponse) : AgentStepResponse :=
  steps.foldl combineInto emptyStep

/-- Binary use of `_combine_steps`, as at every call site in
`split_thread_agent.py` (`self._combine_steps(a, b)`). -/
def merge2 (a b : AgentStepResponse) : AgentStepResponse :=
  combine_steps [a, b]

theorem usage_add_zero (u : UsageStatistics) : u.add {} = u := by
  cases u; simp [UsageStatistics.add]

theorem usage_zero_add (u : UsageStatistics) :
    UsageStatistics.add {} u = u := by
  cases u; simp [UsageStatistics.add]

theorem usage_add_assoc (a b c : UsageStatistics) :
    (a.add b).add c = a.add (b.add c) := by
  simp [UsageStatistics.add, Nat.add_assoc]

theorem usage_add_comm (a b : UsageStatistics) : a.add b = b.add a := by
  simp [UsageStatistics.add, Nat.add_comm]

theorem combineInto_empty (a : AgentStepResponse) :
    combineInto emptyStep a = a := by
  cases a; simp [combineInto, emptyStep, usage_zero_add]

theorem combineInto_empty_right (a : AgentStepResponse) :
    combineInto a emptyStep = a := by
  cases a; simp [combineInto, emptyStep, usage_add_zero]

theorem combineInto_assoc (a b c : AgentStepResponse) :
    combineInto (combineInto a b) c = combineInto a (combineInto b c) := by
  simp [combineInto, Bool.or_assoc, List.append_assoc, usage_add_assoc]

theorem merge2_eq_combineInto (a b : AgentStepResponse) :
    merge2 a b = combineInto a b := by
  simp [merge2, combine_steps, List.foldl, combineInto_empty]

/-- **C4** — The `_combine_steps` merge is associative (on every field,
message lists concatenating in argument order), and commutative on the
three boolean fields (logical OR) and on the usage field (componentwise
addition). -/
theorem combine_steps_assoc_and_bool_usage_comm :
    (∀ a b c : AgentStepResponse,
      merge2 (merge2 a b) c = merge2 a (merge2 b c)) ∧
    (∀ a b : AgentStepResponse,
      (merge2 a b).heartbeat_request = (merge2 b a).heartbeat_request ∧
      (merge2 a b).function_failed = (merge2 b a).function_failed ∧
      (merge2 a b).in_context_memory_warning
        = (merge2 b a).in_context_memory_warning ∧
      (merge2 a b).usage = (merge2 b a).usage ∧
      (merge2 a b).messages = a.messages ++ b.messages) := by
  constructor
  · intro a b c
    simp [merge2_eq_combineInto, combineInto_assoc]
  · intro a b
    simp [merge2_eq_combineInto, combineInto, Bool.or_comm, usage_add_comm]

/-- **C9** — `_combine_steps` on an empty argument tuple returns the
neutral step result (empty messages, all flags `False`, zero usage); the
neutral result is a two-sided identity of the binary merge, and the
variadic merge is precisely the monoid fold of the binary merge over its
arguments. -/
theorem combine_steps_monoid :
    combine_steps [] = emptyStep ∧
    (∀ a : AgentStepResponse, merge2 emptyStep a = a ∧ merge2 a emptyStep = a) ∧
    (∀ steps : List AgentStepResponse,
      combine_steps steps = steps.foldl merge2 emptyStep) := by
  refine ⟨rfl, ?_, ?_⟩
  · intro a
    constructor
    · simp [merge2_eq_combineInto, combineInto_empty]
    · simp [merge2_eq_combineInto, combineInto_empty_right]
  · intro steps
    have h : ∀ acc : AgentStepResponse,
        steps.foldl combineInto acc = steps.foldl merge2 acc := by
      induction steps with
      | nil => intro acc; rfl
      | cons s rest ih =>
          intro acc
          simp [List.foldl, merge2_eq_combineInto, ih]
    simpa [combine_steps] using h emptyStep

/-- The pending-slot update in `_memory_step` (lines 185–189): under
`memory_result_lock`, if the slot already holds an unclaimed result,
combine the new memory step into it (existing result first), otherwise
store the new result.  (`if self.memory_result:` on a pydantic model is
a `None` test: model instances are always truthy.) -/
def depositMemoryResult (slot : Option AgentStepResponse)
    (memory_step : AgentStepResponse) : Option AgentStepResponse :=
  match slot with
  | some r => some (combine_steps [r, memory_step])
  | none => some memory_step

/-- The merge phase of `step` (lines 152–158): under
`memory_result_lock`, if a memory result is pending, combine it (memory
first) with the conversation result and clear the slot; otherwise
return the conversation-only result.  Returns the step result together
with the new contents of the pending slot. -/
def mergePhase (memory_result : Option AgentStepResponse)
    (conversation_step : AgentStepResponse) :
    AgentStepResponse × Option AgentStepResponse :=
  match memory_result with
  | some m => (combine_steps [m, conversation_step], none)
  | none => (conversation_step, none)

/-- The conversation portion of `step` (lines 122–151), run under
`conversation_agent_lock`.  Inputs: the `conversation_waited` flag at
entry (`waited0`), whether the first (resp. second) conversation turn
invokes `_wait_for_memory_tool` and hence sets the flag (`sets1`,
`sets2`), and the results of the two possible conversation turns.
Output: the combined conversation result, the `conversation_waited`
flag at exit, and how many times `conversation_agent.step` ran.
When a retry runs, line 150 unconditionally clears the flag, so `sets2`
never survives the step. -/
def conversationPhase (waited0 sets1 sets2 : Bool)
    (turn1 turn2 : AgentStepResponse) :
    AgentStepResponse × Bool × Nat :=
  let waited1 := waited0 || sets1
  if waited1 then
    let _waited2 := waited1 || sets2
    (combine_steps [turn1, turn2], false, 2)
  else
    (turn1, waited1, 1)

/-- The whole of `step` (lines 122–158): the conversation phase followed
by the merge phase against the pending slot as it stands when
`memory_result_lock` is taken (`slotAtMerge`).  Returns the returned
step result, the slot after the merge phase, the `conversation_waited`
flag at exit, and the number of conversation-agent invocations. -/
def stepRun (waited0 sets1 sets2 : Bool)
    (turn1 turn2 : AgentStepResponse)
    (slotAtMerge : Option AgentStepResponse) :
    AgentStepResponse × Option AgentStepResponse × Bool × Nat :=
  let (conv, flagOut, n) := conversationPhase waited0 sets1 sets2 turn1 turn2
  let (result, slotOut) := mergePhase slotAtMerge conv
  (result, slotOut, flagOut, n)

/-- **C3** — Merge phase of `step`: when a memory result `m` is pending,
the returned result is the merge of `m` and the conversation result with
`m` first (messages `m ++ conv`, booleans ORed, usage added) and the
pending slot is cleared; when no memory result is pending, the
conversation-only result is returned. -/
theorem step_merge_phase_spec :
    ∀ (m conv : AgentStepResponse),
      ((mergePhase (some m) conv).1 = merge2 m conv ∧
       (mergePhase (some m) conv).1.messages = m.messages ++ conv.messages ∧
       (mergePhase (some m) conv).1.function_failed
         = (m.function_failed || conv.function_failed) ∧
       (mergePhase (some m) conv).1.heartbeat_request
         = (m.heartbeat_request || conv.heartbeat_request) ∧
       (mergePhase (some m) conv).1.in_context_memory_warning
         = (m.in_context_memory_warning || conv.in_context_memory_warning) ∧
       (mergePhase (some m) conv).1.usage = m.usage.add conv.usage ∧
       (mergePhase (some m) conv).2 = none) ∧
      mergePhase none conv = (conv, none) := by
  intro m conv
  refine ⟨⟨rfl, ?_, ?_, ?_, ?_, ?_, rfl⟩, rfl⟩ <;>
    simp [mergePhase, combine_steps, List.foldl, combineInto, emptyStep,
      usage_zero_add]

/-- **C7** — The pending slot never drops data: a memory completion that
finds an unclaimed result in the slot combines the new result into the
same slot with the merge rule, existing result first; a completion that
finds the slot empty stores its result; either way the slot afterwards
holds exactly one unclaimed result. -/
theorem pending_slot_never_drops :
    ∀ (old r : AgentStepResponse),
      depositMemoryResult (some old) r = some (merge2 old r) ∧
      (∀ x, depositMemoryResult (some old) r = some x →
        x.messages = old.messages ++ r.messages) ∧
      depositMemoryResult none r = some r ∧
      (∀ slot : Option AgentStepResponse,
        (depositMemoryResult slot r).isSome = true) := by
  intro old r
  refine ⟨rfl, ?_, rfl, ?_⟩
  · intro x hx
    have hx' : x = merge2 old r := by
      simpa [depositMemoryResult, merge2] using hx.symm
    subst hx'
    simp [merge2_eq_combineInto, combineInto]
  · intro slot
    cases slot <;> simp [depositMemoryResult]

/-- **C5** — Per call to `step`, the conversation agent runs at most
twice; it runs exactly once (returning that turn's result unchanged)
when the retry flag is never set; when the retry triggers, the two
conversation outputs are merged by the merge rule and the flag is
cleared before `step` returns — indeed the flag is `False` at exit in
every case. -/
theorem conversation_at_most_one_retry :
    ∀ (waited0 sets1 sets2 : Bool) (turn1 turn2 : AgentStepResponse),
      (conversationPhase waited0 sets1 sets2 turn1 turn2).2.2 ≤ 2 ∧
      (waited0 = false → sets1 = false →
        conversationPhase waited0 sets1 sets2 turn1 turn2 = (turn1, false, 1)) ∧
      ((waited0 || sets1) = true →
        conversationPhase waited0 sets1 sets2 turn1 turn2
          = (merge2 turn1 turn2, false, 2)) ∧
      (conversationPhase waited0 sets1 sets2 turn1 turn2).2.1 = false := by
  intro waited0 sets1 sets2 turn1 turn2
  refine ⟨?_, ?_, ?_, ?_⟩
  · cases waited0 <;> cases sets1 <;> simp [conversationPhase]
  · intro h0 h1; subst h0; subst h1; simp [conversationPhase]
  · intro h; simp [conversationPhase, h, merge2]
  · cases waited0 <;> cases sets1 <;> simp [conversationPhase]

/-- Witness for `conversation_at_most_one_retry` at concrete inputs. -/
theorem conversation_at_most_one_retry_witness :
    conversationPhase false false false emptyStep emptyStep
      = (emptyStep, false, 1) ∧
    conversationPhase false true false emptyStep emptyStep
      = (merge2 emptyStep emptyStep, false, 2) :=
  ⟨(conversation_at_most_one_retry false false false emptyStep
      emptyStep).2.1 rfl rfl,
   (conversation_at_most_one_retry false true false emptyStep
      emptyStep).2.2.1 rfl⟩

/-- **C6 counterexample** — Scenario A at concrete inputs: the memory
worker has completed and deposited its result (one message `0`) before
`step` reaches the merge phase, and the conversation turn (one message
`1`) never invokes the blocking tool.  The claim says `step` returns the
conversation-only result and the slot keeps the memory result; the code
instead merges the deposited memory result into this very step and
clears the slot. -/
theorem scenarioA_claim_false :
    ¬ ((stepRun false false false
          ⟨[1], false, false, false, ⟨2, 3, 5⟩⟩ emptyStep
          (some ⟨[0], false, false, false, ⟨1, 1, 2⟩⟩)).1
        = ⟨[1], false, false, false, ⟨2, 3, 5⟩⟩ ∧
       (stepRun false false false
          ⟨[1], false, false, false, ⟨2, 3, 5⟩⟩ emptyStep
          (some ⟨[0], false, false, false, ⟨1, 1, 2⟩⟩)).2.1
        = some ⟨[0], false, false, false, ⟨1, 1, 2⟩⟩) := by
  decide

/-- **C6 amended** — When the memory worker has deposited its result
before the merge phase of `step`, the returned result is the merge of
the memory result and the conversation result (memory first) and the
pending slot is cleared; the conversation-only result, with the memory
output surfacing on a later step's merge, occurs exactly when the
deposit has not yet happened when the merge phase runs. -/
theorem scenarioA_amended :
    ∀ (m turn1 turn2 next1 : AgentStepResponse),
      stepRun false false false turn1 turn2 (some m)
        = (merge2 m turn1, none, false, 1) ∧
      stepRun false false false turn1 turn2 none = (turn1, none, false, 1) ∧
      (stepRun false false false next1 turn2 (depositMemoryResult none m)).1
        = merge2 m next1 := by
  intro m turn1 turn2 next1
  refine ⟨rfl, rfl, rfl⟩

/-- The outcome of the underlying `memory_agent.step` call inside
`_memory_step`: either it returns a step result (possibly one that
records a tool failure via `function_failed=True`), or it raises an
exception. -/
inductive MemStepOutcome where
  | ok (r : AgentStepResponse)
  | raised
  deriving DecidableEq, Repr

/-- The externally visible effects of one `_memory_step` run. -/
structure MemStepEffects where
  memory_result : Option AgentStepResponse
  memory_finished : Bool
  mirror_synced : Bool
  signalled : Bool
  deriving DecidableEq, Repr

/-- `SplitThreadAgent._memory_step` (lines 160–198) as a function of the
outcome of `self.memory_agent.step` and of the pending slot.  The body
has no `try`/`except` and no `finally`: when the agent step raises, the
exception terminates the worker thread before lines 185–198 run, so
nothing is deposited, `memory_finished` stays `False`, the conversation
agent's memory mirror is not overwritten, and `memory_condition.notify()`
is never called.  When the agent step returns — including a result whose
`function_failed` is `True` — the deposit, the flag, the mirror sync and
the notify all happen. -/
def memory_step_run (outcome : MemStepOutcome)
    (slot : Option AgentStepResponse) : MemStepEffects :=
  match outcome with
  | .raised =>
      { memory_result := slot
        memory_finished := false
        mirror_synced := false
        signalled := false }
  | .ok r =>
      { memory_result := depositMemoryResult slot r
        memory_finished := true
        mirror_synced := true
        signalled := true }

/-- **C1** — Failure semantics of `_memory_step`.  The claim requires
that a failing memory step still signals the rendezvous with the failure
recorded as `function_failed=True`.  The code does this only for
failures returned by value: when `memory_agent.step` raises, the worker
thread dies having signalled nothing, deposited nothing, and left
`memory_finished` at `False` — a parked conversation worker hangs.  When
the step returns normally, the signal is delivered and a
`function_failed=True` result is preserved in the pending slot. -/
theorem memory_step_failure_semantics :
    (memory_step_run MemStepOutcome.raised none).signalled = false ∧
    (memory_step_run MemStepOutcome.raised none).memory_finished = false ∧
    (memory_step_run MemStepOutcome.raised none).memory_result = none ∧
    (∀ (r : AgentStepResponse) (slot : Option AgentStepResponse),
      (memory_step_run (MemStepOutcome.ok r) slot).signalled = true ∧
      (memory_step_run (MemStepOutcome.ok r) slot).memory_finished = true ∧
      (memory_step_run (MemStepOutcome.ok r) none).memory_result = some r) := by
  exact ⟨rfl, rfl, rfl, fun r slot => ⟨rfl, rfl, rfl⟩⟩

/-- Program counter of the conversation thread during a turn that
invokes the blocking tool.  `conversation_agent_lock` is held from
`running` until `released` (the `with` block of `step`, lines 122–151).

* `running`  — conversation turn in progress, about to invoke
  `wait_for_memory_update`;
* `checking` — inside `_wait_for_memory_tool`, holding
  `memory_condition`, about to test `memory_finished` (line 202);
* `waiting`  — parked in `memory_condition.wait()` (line 203);
* `resumed`  — the tool returned (line 205), turn continuing;
* `released` — the turn is over and `conversation_agent_lock` is free. -/
inductive ConvPC
  | running
  | checking
  | waiting
  | resumed
  | released
  deriving DecidableEq, Repr

/-- Program counter of the memory thread in `_memory_step`.

* `stepping`     — `memory_agent.step` still running (line 173);
* `finished_set` — result deposited and `memory_finished = True`
  (lines 185–190), about to acquire `conversation_agent_lock`
  (line 192);
* `syncing`      — holds `conversation_agent_lock`, overwriting the
  conversation agent's memory mirror and saving (lines 193–195);
* `notifying`    — released the lock, about to
  `memory_condition.notify()` (lines 197–198);
* `done`         — thread finished. -/
inductive MemPC
  | stepping
  | finished_set
  | syncing
  | notifying
  | done
  deriving DecidableEq, Repr

/-- Joint state of the two threads in the turn-invokes-blocking-tool
scenario: the two program counters, the `memory_finished` flag, and
whether the conversation agent's memory mirror has been overwritten
with the memory agent's state (lines 193–195 completed). -/
structure SplitState where
  conv : ConvPC
  mem : MemPC
  memory_finished : Bool
  mirror_synced : Bool
  deriving DecidableEq, Repr

/-- The conversation thread holds `conversation_agent_lock` for the
whole turn: from entry of the `with` block to `released`. -/
def convHoldsLock (s : SplitState) : Bool :=
  match s.conv with
  | ConvPC.released => false
  | _ => true

/-- One-step interleaving successors.  Conversation transitions: invoke
the tool; the level-triggered check (line 202) either passes
(`memory_finished` true, tool returns) or parks; a parked thread is
woken only by `notify` (modelled in the memory thread's `notifying`
transition, which re-runs the `while` check); a resumed turn eventually
ends, releasing the lock.  Memory transitions: the agent step returns
and lines 185–190 run; acquiring `conversation_agent_lock` (line 192)
is enabled only when the conversation thread does not hold it; the sync
(lines 193–195) sets the mirror; the notify (lines 197–198) wakes a
parked conversation thread.  Monitor semantics, no spurious wakeups, as
the spec's §4.1 prescribes. -/
def succs (s : SplitState) : List SplitState :=
  (match s.conv with
   | ConvPC.running => [{ s with conv := ConvPC.checking }]
   | ConvPC.checking =>
       if s.memory_finished then [{ s with conv := ConvPC.resumed }]
       else [{ s with conv := ConvPC.waiting }]
   | ConvPC.waiting => []
   | ConvPC.resumed => [{ s with conv := ConvPC.released }]
   | ConvPC.released => []) ++
  (match s.mem with
   | MemPC.stepping =>
       [{ s with mem := MemPC.finished_set, memory_finished := true }]
   | MemPC.finished_set =>
       if convHoldsLock s then [] else [{ s with mem := MemPC.syncing }]
   | MemPC.syncing =>
       [{ s with mem := MemPC.notifying, mirror_synced := true }]
   | MemPC.notifying =>
       [{ s with
            mem := MemPC.done
            conv := if s.conv = ConvPC.waiting then ConvPC.checking
                    else s.conv }]
   | MemPC.done => [])

/-- Start of the scenario: conversation turn running (lock held, will
invoke the blocking tool), memory step running, `memory_finished`
cleared by line 104, mirror not yet overwritten this step. -/
def initState : SplitState :=
  { conv := ConvPC.running
    mem := MemPC.stepping
    memory_finished := false
    mirror_synced := false }

/-- One breadth-first expansion of a set of states by `succs`. -/
def expandStates (l : List SplitState) : List SplitState :=
  (l ++ l.flatMap succs).dedup

/-- States reachable from `initState` in at most `n` interleaving
steps. -/
def reachN : Nat → List SplitState
  | 0 => [initState]
  | n + 1 => expandStates (reachN n)

/-- All states reachable from `initState` (the system's diameter is far
below 12; `publish_order_amended` proves this list closed under
`succs`). -/
def reachSet : List SplitState := reachN 12

/-- The deadlocked state: conversation thread parked in
`memory_condition.wait()` while holding `conversation_agent_lock`;
memory thread blocked acquiring that same lock at line 192, never
reaching `notify`. -/
def deadState : SplitState :=
  { conv := ConvPC.waiting
    mem := MemPC.finished_set
    memory_finished := true
    mirror_synced := false }

/-- **C2** — The no-deadlock property fails on the code: when the
conversation agent invokes `wait_for_memory_update` and actually parks
(checks `memory_finished` while still `False`), the system reaches a
state with no enabled transition — the parked conversation thread holds
`conversation_agent_lock`, and the memory thread, which must acquire
that lock (line 192) before it can notify (line 198), blocks forever.
The parked worker never resumes and the signal is never delivered. -/
theorem rendezvous_deadlock_reachable :
    deadState ∈ reachSet ∧
    succs deadState = [] ∧
    deadState.conv = ConvPC.waiting ∧
    deadState.mem ≠ MemPC.done ∧
    convHoldsLock deadState = true := by
  decide

/-- **C8 counterexample** — The publish-ordering claim ("a conversation
worker unblocked by the signal, including one whose level-triggered
park observes the finished flag, always observes the fully updated
memory state") is false on the code: because line 190 sets
`memory_finished` before lines 193–195 overwrite the mirror, the state
in which the conversation thread has resumed through the level-triggered
check while the mirror is still stale is reachable. -/
theorem publish_order_claim_false :
    ¬ (∀ s ∈ reachSet, s.conv = ConvPC.resumed → s.mirror_synced = true) ∧
    (({ conv := ConvPC.resumed
        mem := MemPC.finished_set
        memory_finished := true
        mirror_synced := false } : SplitState) ∈ reachSet) := by
  decide

/-- The order in which `_memory_step` performs its externally visible
actions after `memory_agent.step` returns: deposit the result into the
pending slot (lines 185–189), set `memory_finished` (line 190),
overwrite and save the conversation agent's memory mirror
(lines 192–195), notify the condition (lines 197–198). -/
inductive MemEvent
  | deposit_result
  | set_finished
  | sync_and_save
  | signal
  deriving DecidableEq, Repr

/-- The event order of `_memory_step`'s publication sequence. -/
def memory_step_events : List MemEvent :=
  [MemEvent.deposit_result, MemEvent.set_finished,
   MemEvent.sync_and_save, MemEvent.signal]

/-- **C8 amended** — The memory worker overwrites the mirrored state
strictly before it notifies the condition variable, so a conversation
worker actually woken by the notify always observes the fully updated
state; but the finished flag is set strictly before the overwrite, so a
parker whose level-triggered check observes the flag can resume before
the overwrite and see a stale mirror.  Formally: in `_memory_step`'s
event order the sync precedes the signal and the flag precedes the
sync; `reachSet` is closed under `succs`; in every reachable state
about to notify the mirror is already synced; and any wake-up of a
parked conversation thread happens with the mirror synced. -/
theorem publish_order_amended :
    memory_step_events.indexOf MemEvent.sync_and_save
      < memory_step_events.indexOf MemEvent.signal ∧
    memory_step_events.indexOf MemEvent.set_finished
      < memory_step_events.indexOf MemEvent.sync_and_save ∧
    (∀ s ∈ reachSet, ∀ t ∈ succs s, t ∈ reachSet) ∧
    (∀ s ∈ reachSet, s.mem = MemPC.notifying → s.mirror_synced = true) ∧
    (∀ s ∈ reachSet, s.conv = ConvPC.waiting →
      ∀ t ∈ succs s, t.conv ≠ ConvPC.waiting → t.mirror_synced = true) := by
  decide

/-- Witness for `publish_order_amended`: the state in which the memory
thread is about to notify (conversation turn already over) is reachable
and its mirror is synced. -/
theorem publish_order_amended_witness :
    ({ conv := ConvPC.released
       mem := MemPC.notifying
       memory_finished := true
       mirror_synced := true } : SplitState).mirror_synced = true :=
  publish_order_amended.2.2.2.1
    { conv := ConvPC.released
      mem := MemPC.notifying
      memory_finished := true
      mirror_synced := true }
    (by decide) rfl

/-- `MEMORY_TOOLS` (lines 20–24): the names routed to the memory
agent. -/
def MEMORY_TOOLS : List String :=
  ["core_memory_append", "core_memory_replace", "archival_memory_insert"]

/-- A tool, as far as the partition in `create_split_thread_agent` is
concerned: only `name` is inspected by the two comprehensions; `tid`
keeps distinct tool objects with equal names distinct. -/
structure Tool where
  tid : Nat
  name : String
  deriving DecidableEq, Repr

/-- `memory_tool_objs = [i for i in tool_objs if i.name in MEMORY_TOOLS]`
(line 248). -/
def memory_tool_objs (tool_objs : List Tool) : List Tool :=
  tool_objs.filter (fun (i : Tool) => decide (i.name ∈ MEMORY_TOOLS))

/-- `conversation_tool_objs = [i for i in tool_objs if i.name not in
MEMORY_TOOLS]` (line 249). -/
def conversation_tool_objs (tool_objs : List Tool) : List Tool :=
  tool_objs.filter (fun (i : Tool) => ! decide (i.name ∈ MEMORY_TOOLS))

/-- **C10** — `create_split_thread_agent` partitions its input tool list
exhaustively and disjointly by name: every tool named in `MEMORY_TOOLS`
goes to the memory agent and no other does; every other tool goes to
the conversation agent; a tool lands in one of the two lists exactly
when it was in the input, and the two output lengths sum to the input
length (nothing dropped, nothing duplicated). -/
theorem create_split_tool_partition :
    ∀ (tool_objs : List Tool) (t : Tool),
      (t ∈ tool_objs →
        (t.name ∈ MEMORY_TOOLS →
          t ∈ memory_tool_objs tool_objs ∧
          t ∉ conversation_tool_objs tool_objs) ∧
        (t.name ∉ MEMORY_TOOLS →
          t ∈ conversation_tool_objs tool_objs ∧
          t ∉ memory_tool_objs tool_objs)) ∧
      ((t ∈ memory_tool_objs tool_objs ∨ t ∈ conversation_tool_objs tool_objs)
        ↔ t ∈ tool_objs) ∧
      (memory_tool_objs tool_objs).length
        + (conversation_tool_objs tool_objs).length = tool_objs.length := by
  intro tool_objs t
  refine ⟨fun ht => ⟨fun hm => ?_, fun hm => ?_⟩, ?_, ?_⟩
  · simp [memory_tool_objs, conversation_tool_objs, List.mem_filter, ht, hm]
  · simp [memory_tool_objs, conversation_tool_objs, List.mem_filter, ht, hm]
  · constructor
    · rintro (h | h) <;> exact (List.mem_filter.mp h).1
    · intro ht
      by_cases hm : t.name ∈ MEMORY_TOOLS
      · exact Or.inl (List.mem_filter.mpr ⟨ht, by simp [hm]⟩)
      · exact Or.inr (List.mem_filter.mpr ⟨ht, by simp [hm]⟩)
  · exact (List.length_eq_length_filter_add
      (fun (i : Tool) => decide (i.name ∈ MEMORY_TOOLS))).symm

/-- Witness for `create_split_tool_partition` on a concrete two-tool
list: the memory tool goes only to the memory agent and the other tool
only to the conversation agent. -/
theorem create_split_tool_partition_witness :
    (⟨0, "core_memory_append"⟩ : Tool)
        ∈ memory_tool_objs [⟨0, "core_memory_append"⟩, ⟨1, "send_message"⟩] ∧
      (⟨0, "core_memory_append"⟩ : Tool)
        ∉ conversation_tool_objs
            [⟨0, "core_memory_append"⟩, ⟨1, "send_message"⟩] :=
  ((create_split_tool_partition
      [⟨0, "core_memory_append"⟩, ⟨1, "send_message"⟩]
      ⟨0, "core_memory_append"⟩).1 (by decide)).1 (by decide)

/-- Witness for `pending_slot_never_drops` at concrete inputs: the
combined slot contents concatenate the two message lists. -/
theorem pending_slot_never_drops_witness :
    (merge2 emptyStep emptyStep).messages
      = emptyStep.messages ++ emptyStep.messages :=
  (pending_slot_never_drops emptyStep emptyStep).2.1
    (merge2 emptyStep emptyStep) rfl
